import Mathlib

/-!
Verification of the note-recognition core of `recorder-royale`
(`src/note_recognizer.py`), shallowly embedded in Lean 4.

Times and frequencies are modelled as rationals (the Python code uses
floats; every quantity appearing in the claims is exact in this model).
Audio samples are signed 16-bit integers modelled as `ℤ`; the discrete
Fourier transform of a block is modelled exactly over `ℝ`.
-/

namespace RecorderRoyale

/-- Note symbols are the Python one-character note names ('C', 'D', ...). -/
abbrev Note : Type := Char

/-! ## FrequencyEstimator: `NoteRecognizer.get_frequency` (lines 63-87) -/

/-- `np.abs` on an int16 sample: two's-complement negation wraps at the
minimum value, so `np.abs(-32768) = -32768`; every other sample maps to
its absolute value. -/
def npAbs16 (z : ℤ) : ℤ :=
  if z = -32768 then -32768 else (z.natAbs : ℤ)

/-- `np.abs(audio_array).mean()` (line 71): the mean of the (int16)
absolute values of the samples. -/
def volume (x : List ℤ) : ℚ :=
  (((x.map npAbs16).sum : ℤ) : ℚ) / (x.length : ℚ)

/-- The magnitude of the k-th `np.fft.rfft` coefficient of the block
(lines 76-77): `|Σ_j x_j · e^(-2πi·j·k/n)|`, written via its real and
imaginary parts (negating the sine sum does not change the magnitude). -/
noncomputable def dftMag (x : List ℤ) (k : ℕ) : ℝ :=
  Real.sqrt
    ((∑ j ∈ Finset.range x.length,
        ((x.getD j 0 : ℤ) : ℝ) * Real.cos (2 * Real.pi * j * k / x.length)) ^ 2 +
     (∑ j ∈ Finset.range x.length,
        ((x.getD j 0 : ℤ) : ℝ) * Real.sin (2 * Real.pi * j * k / x.length)) ^ 2)

/-- Among the `n/2 + 1` rfft coefficient magnitudes there is a first
index attaining the maximum. -/
def peakIndex_exists (x : List ℤ) : ∃ k, k < x.length / 2 + 1 ∧
    ∀ j, j < x.length / 2 + 1 → dftMag x j ≤ dftMag x k := by
  obtain ⟨b, hb, hmax⟩ := Finset.exists_max_image
    (Finset.range (x.length / 2 + 1)) (dftMag x)
    ⟨0, Finset.mem_range.mpr (Nat.succ_pos _)⟩
  exact ⟨b, Finset.mem_range.mp hb,
    fun j hj => hmax j (Finset.mem_range.mpr hj)⟩

/-- `np.argmax(fft_magnitude)` (line 80): the FIRST index attaining the
maximum magnitude among the `n/2 + 1` rfft coefficients, modelled as the
least index that is ≥ every coefficient. -/
noncomputable def peakIndex (x : List ℤ) : ℕ :=
  @Nat.find (fun k => k < x.length / 2 + 1 ∧
      ∀ j, j < x.length / 2 + 1 → dftMag x j ≤ dftMag x k)
    (Classical.decPred _) (peakIndex_exists x)

/-- `frequency = peak_index * self.SAMPLE_RATE / len(audio_array)`
(line 81), with `SAMPLE_RATE = 44100`. -/
noncomputable def peakFrequency (x : List ℤ) : ℚ :=
  ((peakIndex x : ℚ) * 44100) / (x.length : ℚ)

/-- `NoteRecognizer.get_frequency` (lines 63-87): return `None` when the
volume proxy is below 200; otherwise return the peak frequency unless it
lies outside the plausible range (strictly below 500 Hz or strictly
above 3000 Hz). -/
noncomputable def get_frequency (x : List ℤ) : Option ℚ :=
  if volume x < 200 then none
  else if peakFrequency x < 500 ∨ 3000 < peakFrequency x then none
  else some (peakFrequency x)

/-! ## FrequencyStabilizer: `process_audio` lines 134-146 -/

/-- Insert a value into an already ascending list, keeping it ascending. -/
def insertSorted (x : ℚ) : List ℚ → List ℚ
  | [] => [x]
  | y :: ys => if x ≤ y then x :: y :: ys else y :: insertSorted x ys

/-- Sort a list of rationals ascending (insertion sort). -/
def sortAsc (l : List ℚ) : List ℚ :=
  l.foldr insertSorted []

/-- `np.median` (line 142): the middle element of the sorted values for
odd length, the mean of the two middle elements for even length. -/
def median (l : List ℚ) : ℚ :=
  let s := sortAsc l
  if l.length % 2 = 1 then s.getD (l.length / 2) 0
  else (s.getD (l.length / 2 - 1) 0 + s.getD (l.length / 2) 0) / 2

/-- `self.freq_buffer.append(frequency)` on a `deque(maxlen=5)`
(lines 51 and 135): append on the right, evicting from the left beyond
5 entries.  The buffer holds estimates including absences. -/
def pushWindow (buf : List (Option ℚ)) (v : Option ℚ) : List (Option ℚ) :=
  let b := buf ++ [v]
  b.drop (b.length - 5)

/-- The stabilization step of `process_audio` (lines 134-146): append the
new estimate to the window; if it is present and the window then holds at
least 2 present values, output their median, with fewer than 2 output the
new estimate itself; if it is absent, output absent.  Returns the updated
window and the stable frequency. -/
def stabilize (buf : List (Option ℚ)) (freq : Option ℚ) :
    List (Option ℚ) × Option ℚ :=
  let buf2 := pushWindow buf freq
  match freq with
  | some f =>
      let non_none := buf2.filterMap id
      (buf2, if 2 ≤ non_none.length then some (median non_none) else some f)
  | none => (buf2, none)

/-! ## NoteClassifier: `frequency_to_note` (lines 89-100) -/

/-- `NoteRecognizer.NOTE_RANGES` (lines 31-38), in the source's
(insertion-ordered) dict order: symbol, low bound, high bound in Hz. -/
def NOTE_RANGES : List (Note × ℚ × ℚ) :=
  [('C', 500, 790), ('D', 900, 1000), ('E', 1001, 1200),
   ('F', 1210, 1300), ('G', 1310, 3000), ('A', 800, 881)]

/-- `NoteRecognizer.frequency_to_note` (lines 89-100): scan the table in
order and return the first symbol whose inclusive interval contains the
frequency; `None` input maps to `None`. -/
def frequency_to_note (freq : Option ℚ) : Option Note :=
  match freq with
  | none => none
  | some f =>
      (NOTE_RANGES.find? fun r => decide (r.2.1 ≤ f) && decide (f ≤ r.2.2)).map
        Prod.fst

/-! ## NoteBoundaryDetector: `process_audio` lines 151-189 -/

/-- The debouncing parameters of `NoteRecognizer.__init__` (lines 44-46),
kept parametric so the transition theorems quantify over them. -/
structure Config : Type where
  MIN_NOTE_DURATION : ℚ
  SILENCE_THRESHOLD : ℚ
  DROPOUT_TOLERANCE : ℚ
  deriving Repr

/-- The constants the source fixes: 0.05 s, 0.1 s, 0.05 s. -/
def codeCfg : Config := ⟨1/20, 1/10, 1/20⟩

/-- The note-session state mutated by `process_audio`: `current_note`,
`note_start_time`, `last_detection_time` (lines 41-47; the fields
`last_note_time` and `last_dropout_time` are initialized once and never
written again, so they are omitted). -/
structure RecState : Type where
  current_note : Option Note
  note_start_time : ℚ
  last_detection_time : ℚ
  deriving DecidableEq, Repr

/-- The `__init__` state: no current note, both times 0. -/
def initState : RecState := ⟨none, 0, 0⟩

/-- One iteration of the debouncing logic of `process_audio`
(lines 151-189) on a classified tick `(sym, now)`.  Returns the new state
and the closing event, if any, as the pair
(symbol passed to `self.callback`, the `note_duration` the code computes
for the minimum-duration test).  The source passes only the symbol to the
callback (`self.callback(self.current_note)`, lines 167 and 187); the
duration component records the value computed at lines 164 and 184. -/
def step (cfg : Config) (st : RecState) (sym : Option Note) (now : ℚ) :
    RecState × Option (Note × ℚ) :=
  match sym with
  | some d =>
      -- `if detected_note:` branch; `self.last_detection_time = current_time`
      let st1 : RecState := { st with last_detection_time := now }
      match st.current_note with
      | none =>
          -- new note starting
          ({ st1 with current_note := some d, note_start_time := now }, none)
      | some c =>
          if d ≠ c then
            -- different note: finish the previous note, start the new one
            let dur := now - st.note_start_time
            ({ st1 with current_note := some d, note_start_time := now },
             if cfg.MIN_NOTE_DURATION ≤ dur then some (c, dur) else none)
          else
            -- same note: only last_detection_time was updated
            (st1, none)
  | none =>
      match st.current_note with
      | some c =>
          let silence := now - st.last_detection_time
          if cfg.DROPOUT_TOLERANCE ≤ silence then
            if cfg.SILENCE_THRESHOLD ≤ silence then
              let dur := st.last_detection_time - st.note_start_time
              ({ st with current_note := none },
               if cfg.MIN_NOTE_DURATION ≤ dur then some (c, dur) else none)
            else (st, none)
          else (st, none)
      | none => (st, none)

/-- Run the detector over a timestamped tick script, collecting the
closing events in order. -/
def run (cfg : Config) : RecState → List (Option Note × ℚ) →
    RecState × List (Note × ℚ)
  | st, [] => (st, [])
  | st, (sym, t) :: rest =>
      let p := step cfg st sym t
      let q := run cfg p.1 rest
      (q.1, p.2.elim [] (fun e => [e]) ++ q.2)

/-- The sequence of arguments actually handed to the registered callback:
the source invokes `self.callback(self.current_note)` with the symbol
only (lines 167 and 187). -/
def callbackTrace (cfg : Config) (st : RecState)
    (ticks : List (Option Note × ℚ)) : List Note :=
  ((run cfg st ticks).2).map Prod.fst

/-- The scripted scenario of claim C1:
`[(A,0ms),(A,60ms),(none,110ms),(B,200ms),(B,260ms)]`, in seconds. -/
def c1Script : List (Option Note × ℚ) :=
  [(some 'A', 0), (some 'A', 3/50), (none, 11/100),
   (some 'B', 1/5), (some 'B', 13/50)]

/-- A run of note A lasting 100 ms, then closed by sustained silence. -/
def c2ScriptShort : List (Option Note × ℚ) :=
  [(some 'A', 0), (some 'A', 1/10), (none, 3/10)]

/-- A run of note A lasting 200 ms, then closed by sustained silence. -/
def c2ScriptLong : List (Option Note × ℚ) :=
  [(some 'A', 0), (some 'A', 1/5), (none, 2/5)]

/-! ## Theorems -/

/-- C1: counterexample to the claim as stated.  On the scripted sequence
`[(A,0ms),(A,60ms),(none,110ms),(B,200ms),(B,260ms)]` with the claimed
parameters (which are exactly the code's constants), the detector does
NOT produce the emission `(A, 60 ms)`: at t = 110 ms only 50 ms have
elapsed since the last detection of A at t = 60 ms, which is below the
100 ms silence threshold, so the A run is not closed there. -/
theorem c1_counterexample :
    (run codeCfg initState c1Script).2 ≠ [('A', 3/50)] := by
  norm_num [run, step, codeCfg, initState, c1Script,
    (show ('B':Char) ≠ 'A' from by decide)]

/-- C1 (amended): feeding the scripted sequence
`[(A,0ms),(A,60ms),(none,110ms),(B,200ms),(B,260ms)]` with
minNoteDuration = 50 ms, dropoutTolerance = 50 ms,
silenceThreshold = 100 ms produces exactly one emission,
`(A, 200 ms duration)`, issued at the t = 200 ms tick when the symbol
changes to B (at t = 110 ms the elapsed silence is only 50 ms, below the
silence threshold, so A is not closed there); B is left pending
(run started at t = 200 ms, last seen at t = 260 ms) until a later tick
or stop. -/
theorem c1_scenario_run :
    run codeCfg initState c1Script =
      (⟨some 'B', 1/5, 13/50⟩, [('A', 1/5)]) := by
  norm_num [run, step, codeCfg, initState, c1Script,
    (show ('B':Char) ≠ 'A' from by decide)]

/-- C2: counterexample to "the emitted unit delivered to the consumer is
the pair (symbol, duration)".  Two runs of note A with different realized
durations (100 ms vs 200 ms, both closed by sustained silence) hand the
registered callback identical argument sequences, because the source
invokes `self.callback(self.current_note)` with the symbol only: the
duration is not delivered and cannot be recovered by the consumer. -/
theorem c2_counterexample :
    callbackTrace codeCfg initState c2ScriptShort =
        callbackTrace codeCfg initState c2ScriptLong ∧
      (run codeCfg initState c2ScriptShort).2 = [('A', 1/10)] ∧
      (run codeCfg initState c2ScriptLong).2 = [('A', 1/5)] := by
  refine ⟨?_, ?_, ?_⟩ <;>
    norm_num [callbackTrace, run, step, codeCfg, initState,
      c2ScriptShort, c2ScriptLong]

/-- C2 (amended): the registered callback is invoked with only the
completed note's symbol (the realized duration is computed for the
minimum-duration test and for logging, but is not passed to the
callback), and it is invoked at most once per physical note: whenever a
tick produces an emission, the emitted symbol is the symbol of the run
that was active before the tick, and that run is closed by the same
tick — afterwards the detector is either Idle or in a run whose start
time is the current tick's time, so no later tick can emit for the same
run again. -/
theorem c2_emission_closes_run (cfg : Config) (st : RecState)
    (sym : Option Note) (now : ℚ) (st1 : RecState) (e : Note × ℚ)
    (h : step cfg st sym now = (st1, some e)) :
    st.current_note = some e.1 ∧
      st1.current_note ≠ st.current_note ∧
      (st1.current_note = none ∨ st1.note_start_time = now) := by
  match sym with
  | some d =>
      match hc : st.current_note with
      | none => simp [step, hc] at h
      | some c =>
          by_cases hd : d ≠ c
          · simp only [step, hc, if_pos hd] at h
            by_cases hm : cfg.MIN_NOTE_DURATION ≤ now - st.note_start_time
            · rw [if_pos hm] at h
              have h1 := congrArg Prod.fst h
              have h2 := Option.some.inj (congrArg Prod.snd h)
              subst h1
              exact ⟨by rw [← h2], by simpa using hd, Or.inr rfl⟩
            · rw [if_neg hm] at h
              exact absurd (congrArg Prod.snd h) (by simp)
          · simp only [step, hc, if_neg hd] at h
            exact absurd (congrArg Prod.snd h) (by simp)
  | none =>
      match hc : st.current_note with
      | none =>
          simp [step, hc] at h
      | some c =>
          by_cases hdo : cfg.DROPOUT_TOLERANCE ≤ now - st.last_detection_time
          · by_cases hsi : cfg.SILENCE_THRESHOLD ≤ now - st.last_detection_time
            · simp only [step, hc, if_pos hdo, if_pos hsi] at h
              by_cases hm : cfg.MIN_NOTE_DURATION ≤
                  st.last_detection_time - st.note_start_time
              · rw [if_pos hm] at h
                have h1 := congrArg Prod.fst h
                have h2 := Option.some.inj (congrArg Prod.snd h)
                subst h1
                exact ⟨by rw [← h2], by simp, Or.inl rfl⟩
              · rw [if_neg hm] at h
                exact absurd (congrArg Prod.snd h) (by simp)
            · simp only [step, hc, if_pos hdo, if_neg hsi] at h
              exact absurd (congrArg Prod.snd h) (by simp)
          · simp only [step, hc, if_neg hdo] at h
            exact absurd (congrArg Prod.snd h) (by simp)

/-- C2 witness: a concrete emitting tick.  From the state
Active('A', start 0 s, last seen 0.1 s), the tick ('B', 0.2 s) emits
('A', 0.2 s): the emitted symbol is the previously active one, the run
is closed, and the new run starts at the tick's time. -/
theorem c2_emission_closes_run_witness :
    (⟨some 'A', 0, 1/10⟩ : RecState).current_note =
        some (('A', (1/5 : ℚ)) : Note × ℚ).1 ∧
      (⟨some 'B', 1/5, 1/5⟩ : RecState).current_note ≠
        (⟨some 'A', 0, 1/10⟩ : RecState).current_note ∧
      ((⟨some 'B', 1/5, 1/5⟩ : RecState).current_note = none ∨
        (⟨some 'B', 1/5, 1/5⟩ : RecState).note_start_time = 1/5) :=
  c2_emission_closes_run codeCfg ⟨some 'A', 0, 1/10⟩ (some 'B') (1/5)
    ⟨some 'B', 1/5, 1/5⟩ ('A', 1/5)
    (by norm_num [step, codeCfg, (show ('B':Char) ≠ 'A' from by decide)])

/-- C3: on a tick with absent classification while Active(s, t0), with
the configuration satisfying dropoutTolerance ≤ silenceThreshold (true
of the code's constants): if now − lastSeenTime < silenceThreshold the
state is left completely unchanged and nothing is emitted; if
now − lastSeenTime ≥ silenceThreshold the run is closed with duration
lastSeenTime − t0 (not now − t0), an event is emitted iff that duration
is ≥ minNoteDuration, and the detector transitions to Idle. -/
theorem c3_silence_transition (cfg : Config)
    (hcfg : cfg.DROPOUT_TOLERANCE ≤ cfg.SILENCE_THRESHOLD)
    (st : RecState) (s : Note) (hs : st.current_note = some s) (now : ℚ) :
    (now - st.last_detection_time < cfg.SILENCE_THRESHOLD →
        step cfg st none now = (st, none)) ∧
      (cfg.SILENCE_THRESHOLD ≤ now - st.last_detection_time →
        step cfg st none now =
          ({ st with current_note := none },
           if cfg.MIN_NOTE_DURATION ≤
               st.last_detection_time - st.note_start_time then
             some (s, st.last_detection_time - st.note_start_time)
           else none)) := by
  constructor
  · intro h
    by_cases hdo : cfg.DROPOUT_TOLERANCE ≤ now - st.last_detection_time
    · simp only [step, hs, if_pos hdo, if_neg (not_le.mpr h)]
    · simp only [step, hs, if_neg hdo]
  · intro h
    have hdo : cfg.DROPOUT_TOLERANCE ≤ now - st.last_detection_time :=
      le_trans hcfg h
    simp only [step, hs, if_pos hdo, if_pos h]

/-- C3 witness: from Active('A', start 0 s, last seen 0.06 s), the absent
tick at 0.2 s has 0.14 s ≥ 0.1 s of silence, so the run closes with
duration 0.06 s (measured to the last detection, not to 0.2 s), emits
because 0.06 s ≥ 0.05 s, and the detector goes Idle. -/
theorem c3_silence_transition_witness :
    codeCfg.DROPOUT_TOLERANCE ≤ codeCfg.SILENCE_THRESHOLD ∧
      codeCfg.SILENCE_THRESHOLD ≤
        (1/5 : ℚ) - (⟨some 'A', 0, 3/50⟩ : RecState).last_detection_time ∧
      step codeCfg ⟨some 'A', 0, 3/50⟩ none (1/5) =
        (⟨none, 0, 3/50⟩, some ('A', 3/50)) := by
  refine ⟨by norm_num [codeCfg], by norm_num [codeCfg], ?_⟩
  rw [(c3_silence_transition codeCfg (by norm_num [codeCfg])
      ⟨some 'A', 0, 3/50⟩ 'A' rfl (1/5)).2 (by norm_num [codeCfg])]
  norm_num [codeCfg]

/-- C4: on a tick with a different present symbol s2 while Active(s, t0),
the detector emits (s, now − t0) iff now − t0 ≥ minNoteDuration — so a
run lasting exactly minNoteDuration is emitted and a shorter one is
silently discarded — and in both cases transitions to Active(s2, now)
(with lastSeenTime also set to now). -/
theorem c4_symbol_change (cfg : Config) (st : RecState) (s s2 : Note)
    (hs : st.current_note = some s) (hne : s2 ≠ s) (now : ℚ) :
    step cfg st (some s2) now =
      (⟨some s2, now, now⟩,
       if cfg.MIN_NOTE_DURATION ≤ now - st.note_start_time then
         some (s, now - st.note_start_time)
       else none) := by
  simp only [step, hs, if_pos hne]

/-- C4 witness: from Active('A', start 0, last seen 0.02 s), the tick
('B', 0.05 s) — a run of exactly minNoteDuration — emits ('A', 0.05 s)
and transitions to Active('B', 0.05 s). -/
theorem c4_symbol_change_witness :
    ('B' : Note) ≠ 'A' ∧
      step codeCfg ⟨some 'A', 0, 1/50⟩ (some 'B') (1/20) =
        (⟨some 'B', 1/20, 1/20⟩, some ('A', 1/20)) := by
  refine ⟨by decide, ?_⟩
  rw [c4_symbol_change codeCfg ⟨some 'A', 0, 1/50⟩ 'A' 'B' rfl (by decide)
    (1/20)]
  norm_num [codeCfg]

/-- C10: a tick with absent classification while a note is active leaves
`note_start_time` and `last_detection_time` unchanged, and the only
session field it may change is `current_note`, which becomes `none`
exactly when the silence threshold is reached (configurations with
dropoutTolerance ≤ silenceThreshold, as in the code). -/
theorem c10_absent_tick_frame (cfg : Config)
    (hcfg : cfg.DROPOUT_TOLERANCE ≤ cfg.SILENCE_THRESHOLD)
    (st : RecState) (s : Note) (hs : st.current_note = some s) (now : ℚ) :
    (step cfg st none now).1.note_start_time = st.note_start_time ∧
      (step cfg st none now).1.last_detection_time =
        st.last_detection_time ∧
      (step cfg st none now).1.current_note =
        (if cfg.SILENCE_THRESHOLD ≤ now - st.last_detection_time then none
         else some s) := by
  by_cases hsi : cfg.SILENCE_THRESHOLD ≤ now - st.last_detection_time
  · have hdo := le_trans hcfg hsi
    simp [step, hs, if_pos hdo, if_pos hsi]
  · by_cases hdo : cfg.DROPOUT_TOLERANCE ≤ now - st.last_detection_time
    · simp [step, hs, if_pos hdo, if_neg hsi]
    · simp [step, hs, if_neg hdo, if_neg hsi]

/-- C10 witness: from Active('A', start 0, last seen 0), the absent tick
at 0.04 s (below the silence threshold) leaves every session field
unchanged. -/
theorem c10_absent_tick_frame_witness :
    (step codeCfg ⟨some 'A', 0, 0⟩ none (1/25)).1.note_start_time = 0 ∧
      (step codeCfg ⟨some 'A', 0, 0⟩ none (1/25)).1.last_detection_time = 0 ∧
      (step codeCfg ⟨some 'A', 0, 0⟩ none (1/25)).1.current_note =
        some 'A' := by
  have h := c10_absent_tick_frame codeCfg (by norm_num [codeCfg])
    ⟨some 'A', 0, 0⟩ 'A' rfl (1/25)
  refine ⟨h.1, h.2.1, ?_⟩
  rw [h.2.2]
  norm_num [codeCfg]

/-- Splitting a run of the detector at a concatenation of tick lists. -/
theorem run_append (cfg : Config) (st : RecState)
    (l1 l2 : List (Option Note × ℚ)) :
    run cfg st (l1 ++ l2) =
      ((run cfg (run cfg st l1).1 l2).1,
       (run cfg st l1).2 ++ (run cfg (run cfg st l1).1 l2).2) := by
  induction l1 generalizing st with
  | nil => simp [run]
  | cons hd tl ih =>
      obtain ⟨sym, t⟩ := hd
      simp [run, ih]

/-- While a note is active, absent ticks whose elapsed silence is below
the dropout tolerance change nothing and emit nothing. -/
theorem run_dropout_gap (cfg : Config) (st : RecState) (s : Note)
    (hs : st.current_note = some s) (gap : List ℚ)
    (hgap : ∀ u ∈ gap, u - st.last_detection_time < cfg.DROPOUT_TOLERANCE) :
    run cfg st (gap.map fun u => (none, u)) = (st, []) := by
  induction gap with
  | nil => simp [run]
  | cons u rest ih =>
      have hstep : step cfg st none u = (st, none) := by
        have hu := hgap u (List.mem_cons_self u rest)
        simp only [step, hs, if_neg (not_le.mpr hu)]
      simp [run, hstep, ih fun v hv => hgap v (List.mem_cons_of_mem u hv)]

/-- C5: a run of symbol s started at time a, interrupted by any gap of
absent ticks each within the dropout tolerance of the last detection,
then resuming the same symbol, emits exactly one event when the run is
closed (here by a different symbol s2 at time c), and that single event
covers the full elapsed span of the run: duration c − a, never two
events. -/
theorem c5_dropout_gap_single_emission (cfg : Config) (st : RecState)
    (hidle : st.current_note = none) (s s2 : Note) (hne : s2 ≠ s)
    (a b c : ℚ) (gap : List ℚ)
    (hgap : ∀ u ∈ gap, u - a < cfg.DROPOUT_TOLERANCE)
    (hmin : cfg.MIN_NOTE_DURATION ≤ c - a) :
    (run cfg st ((some s, a) :: ((gap.map fun u => (none, u)) ++
        [(some s, b), (some s2, c)]))).2 = [(s, c - a)] := by
  have h1 : step cfg st (some s) a = (⟨some s, a, a⟩, none) := by
    simp [step, hidle]
  have h2 : run cfg (⟨some s, a, a⟩ : RecState)
      (gap.map fun u => (none, u)) = (⟨some s, a, a⟩, []) :=
    run_dropout_gap cfg _ s rfl gap hgap
  have h3 : step cfg (⟨some s, a, a⟩ : RecState) (some s) b =
      (⟨some s, a, b⟩, none) := by
    simp [step]
  have h4 : step cfg (⟨some s, a, b⟩ : RecState) (some s2) c =
      (⟨some s2, c, c⟩, some (s, c - a)) := by
    simp [step, hne, hmin]
  simp only [run, h1]
  rw [run_append, h2]
  simp [run, h3, h4]

/-- C5 witness: an A run started at 0 s, a dropout at 0.04 s (within the
0.05 s tolerance), A resuming at 0.08 s, closed by B at 0.2 s: exactly
one emission, ('A', 0.2 s), covering the whole span. -/
theorem c5_dropout_gap_single_emission_witness :
    (∀ u ∈ [(1/25 : ℚ)], u - 0 < codeCfg.DROPOUT_TOLERANCE) ∧
      codeCfg.MIN_NOTE_DURATION ≤ (1/5 : ℚ) - 0 ∧
      (run codeCfg initState ((some 'A', 0) ::
          (([(1/25 : ℚ)].map fun u => (none, u)) ++
            [(some 'A', 2/25), (some 'B', 1/5)]))).2 = [('A', (1/5:ℚ) - 0)] :=
  ⟨by norm_num [codeCfg], by norm_num [codeCfg],
    c5_dropout_gap_single_emission codeCfg initState rfl 'A' 'B'
      (by decide) 0 (2/25) (1/5) [1/25]
      (by norm_num [codeCfg]) (by norm_num [codeCfg])⟩

/-- C6: for every audio block, the estimator (a pure function of the
block) returns absent when the volume proxy — the mean of the int16
absolute sample values — is below the 200 floor; otherwise the peak
index is the first index attaining the maximum DFT magnitude among the
`n/2 + 1` rfft coefficients, and the estimator returns absent when the
frequency `peakIndex · 44100 / n` falls below 500 Hz or above 3000 Hz,
and that frequency itself otherwise. -/
theorem c6_estimator (x : List ℤ) :
    (volume x < 200 → get_frequency x = none) ∧
      (200 ≤ volume x →
        (peakIndex x < x.length / 2 + 1 ∧
          ∀ j, j < x.length / 2 + 1 → dftMag x j ≤ dftMag x (peakIndex x)) ∧
        ((peakFrequency x < 500 ∨ 3000 < peakFrequency x) →
          get_frequency x = none) ∧
        (500 ≤ peakFrequency x → peakFrequency x ≤ 3000 →
          get_frequency x = some (peakFrequency x))) := by
  refine ⟨?_, fun hv => ⟨?_, ?_, ?_⟩⟩
  · intro h
    simp [get_frequency, if_pos h]
  · exact @Nat.find_spec _ (Classical.decPred _) (peakIndex_exists x)
  · intro hout
    simp only [get_frequency, if_neg (not_lt.mpr hv), if_pos hout]
  · intro h5 h3
    have hout : ¬ (peakFrequency x < 500 ∨ 3000 < peakFrequency x) := by
      push_neg
      exact ⟨h5, h3⟩
    simp only [get_frequency, if_neg (not_lt.mpr hv), if_neg hout]

/-- C6 witness: the constant block `[300]` is loud enough (volume 300),
its peak index is 0, hence its peak frequency is 0 Hz, below the 500 Hz
floor, and the estimator returns absent by the out-of-range rule. -/
theorem c6_estimator_witness :
    200 ≤ volume [(300 : ℤ)] ∧ get_frequency [(300 : ℤ)] = none := by
  have hv : volume [(300 : ℤ)] = 300 := by
    norm_num [volume, npAbs16]
  have hpk : peakIndex [(300 : ℤ)] = 0 := by
    refine (@Nat.find_eq_zero _ (Classical.decPred _)
      (peakIndex_exists [(300 : ℤ)])).mpr ⟨Nat.one_pos, fun j hj => ?_⟩
    have hj0 : j = 0 := Nat.lt_one_iff.mp hj
    subst hj0
    exact le_rfl
  have hpf : peakFrequency [(300 : ℤ)] = 0 := by
    rw [peakFrequency, hpk]
    norm_num
  refine ⟨by rw [hv]; norm_num, ?_⟩
  exact ((c6_estimator [(300 : ℤ)]).2 (by rw [hv]; norm_num)).2.1
    (Or.inl (by rw [hpf]; norm_num))

/-- C7: the stabilizer keeps a sliding window of the last 5 estimates
including absences (the updated window is the pushed window, of length
min(|buf|+1, 5)); if the newest estimate is present and the window after
insertion holds at least 2 present values, the output is the median of
all present values in the window; if it is present with fewer than 2
present values, the output is the newest estimate unchanged; if it is
absent, the output is absent regardless of history. -/
theorem c7_stabilizer (buf : List (Option ℚ)) (est : Option ℚ) :
    (stabilize buf est).1 = pushWindow buf est ∧
      (stabilize buf est).1.length = min (buf.length + 1) 5 ∧
      (∀ f, est = some f →
        (2 ≤ ((pushWindow buf est).filterMap id).length →
          (stabilize buf est).2 =
            some (median ((pushWindow buf est).filterMap id))) ∧
        (((pushWindow buf est).filterMap id).length < 2 →
          (stabilize buf est).2 = some f)) ∧
      (est = none → (stabilize buf est).2 = none) := by
  refine ⟨?_, ?_, ?_, ?_⟩
  · cases est <;> rfl
  · have h1 : (stabilize buf est).1 = pushWindow buf est := by
      cases est <;> rfl
    rw [h1, pushWindow]
    simp [List.length_drop]
    omega
  · rintro f rfl
    constructor
    · intro h2
      simp only [stabilize, pushWindow]
      rw [if_pos (by simpa [pushWindow] using h2)]
    · intro h2
      simp only [stabilize, pushWindow]
      rw [if_neg (by simpa [pushWindow] using not_le.mpr h2)]
  · rintro rfl
    rfl

/-- C7 witness: with window history [none, 700, 710] and new present
estimate 1000, the window after insertion holds the 3 present values
{700, 710, 1000}, so the output is their median 710; an absent newest
estimate gives absent. -/
theorem c7_stabilizer_witness :
    2 ≤ ((pushWindow [none, some 700, some 710] (some 1000)).filterMap
        id).length ∧
      (stabilize [none, some 700, some 710] (some 1000)).2 = some 710 := by
  have h := ((c7_stabilizer [none, some 700, some 710] (some 1000)).2.2.1
    1000 rfl).1
  refine ⟨by norm_num [pushWindow, List.filterMap_cons], ?_⟩
  rw [h (by norm_num [pushWindow, List.filterMap_cons])]
  norm_num [pushWindow, List.filterMap_cons, median, sortAsc, insertSorted]

/-- C8: the classifier maps an absent frequency to none; a present
frequency contained in a configured interval [low, high] (both bounds
inclusive) maps to that interval's symbol; and a present frequency
matched by no configured interval maps to none. -/
theorem c8_classifier (f : ℚ) :
    frequency_to_note none = none ∧
      (∀ sym lo hi, (sym, lo, hi) ∈ NOTE_RANGES → lo ≤ f → f ≤ hi →
        frequency_to_note (some f) = some sym) ∧
      ((∀ sym lo hi, (sym, lo, hi) ∈ NOTE_RANGES → ¬(lo ≤ f ∧ f ≤ hi)) →
        frequency_to_note (some f) = none) := by
  refine ⟨rfl, ?_, ?_⟩
  · intro sym lo hi hmem hlo hhi
    simp only [NOTE_RANGES, List.mem_cons, List.not_mem_nil, or_false,
      Prod.mk.injEq] at hmem
    rcases hmem with h | h | h | h | h | h
    all_goals obtain ⟨rfl, rfl, rfl⟩ := h
    · simp [frequency_to_note, NOTE_RANGES, List.find?, hlo, hhi]
    · have hC : ¬ (f ≤ 790) := by linarith
      simp [frequency_to_note, NOTE_RANGES, List.find?, hlo, hhi, hC]
    · have hC : ¬ (f ≤ 790) := by linarith
      have hD : ¬ (f ≤ 1000) := by linarith
      simp [frequency_to_note, NOTE_RANGES, List.find?, hlo, hhi, hC, hD]
    · have hC : ¬ (f ≤ 790) := by linarith
      have hD : ¬ (f ≤ 1000) := by linarith
      have hE : ¬ (f ≤ 1200) := by linarith
      simp [frequency_to_note, NOTE_RANGES, List.find?, hlo, hhi, hC, hD, hE]
    · have hC : ¬ (f ≤ 790) := by linarith
      have hD : ¬ (f ≤ 1000) := by linarith
      have hE : ¬ (f ≤ 1200) := by linarith
      have hF : ¬ (f ≤ 1300) := by linarith
      simp [frequency_to_note, NOTE_RANGES, List.find?, hlo, hhi,
        hC, hD, hE, hF]
    · have hC : ¬ (f ≤ 790) := by linarith
      have hD : ¬ (900 ≤ f) := by linarith
      have hE : ¬ (1001 ≤ f) := by linarith
      have hF : ¬ (1210 ≤ f) := by linarith
      have hG : ¬ (1310 ≤ f) := by linarith
      simp [frequency_to_note, NOTE_RANGES, List.find?, hlo, hhi,
        hC, hD, hE, hF, hG]
  · intro h
    have hnone : NOTE_RANGES.find?
        (fun r => decide (r.2.1 ≤ f) && decide (f ≤ r.2.2)) = none := by
      rw [List.find?_eq_none]
      intro r hr
      have hr2 : (r.1, r.2.1, r.2.2) ∈ NOTE_RANGES := by
        simpa using hr
      simpa [Bool.and_eq_true, decide_eq_true_eq, not_and] using
        fun hlo hhi => h r.1 r.2.1 r.2.2 hr2 ⟨hlo, hhi⟩
    simp [frequency_to_note, hnone]

/-- C8 witness: 850 Hz lies in A's configured interval [800, 881] and is
classified as 'A'; an absent frequency is classified as none. -/
theorem c8_classifier_witness :
    (('A', (800 : ℚ), (881 : ℚ)) ∈ NOTE_RANGES ∧
        frequency_to_note (some 850) = some 'A') ∧
      frequency_to_note none = none :=
  ⟨⟨by simp [NOTE_RANGES], (c8_classifier 850).2.1 'A' 800 881
      (by simp [NOTE_RANGES]) (by norm_num) (by norm_num)⟩,
    (c8_classifier 850).1⟩

end RecorderRoyale
